import Mathlib

/-!
Verification development for the jsro-client library: a shallow embedding of
the request queue (src/unnamed/part_001), the long-poll state machine
(src/poller.js), the remote-object proxy (src/remoteObject.js) and the
connection orchestrator (src/connection.js, first revision), together with
theorems about the behaviour of these components.

Stateful JavaScript is embedded as explicit state passing: each source
function becomes a Lean function from a state to a new state paired with the
list of observable effects it performs (HTTP requests, aborts, event-trigger
firings, future settlements).  Promise continuations (the `.then` handlers
attached in the source) are embedded as separate transition functions tagged
with the data the corresponding closure captured.
-/

set_option autoImplicit false

namespace JSRO

/-- Model of a JavaScript value, flat: object payloads that the client never
inspects are represented by an opaque reference. -/
inductive JsValue where
  | vundefined
  | vnull
  | vbool (b : Bool)
  | vnum (n : Int)
  | vstr (s : String)
  | vobj (ref : Nat)
  deriving DecidableEq, Repr

/-- JavaScript truthiness of a value. -/
def truthy : JsValue → Bool
  | JsValue.vundefined => false
  | JsValue.vnull => false
  | JsValue.vbool b => b
  | JsValue.vnum n => decide (n ≠ 0)
  | JsValue.vstr s => decide (s ≠ "")
  | JsValue.vobj _ => true

/-- Truthiness of reading an optional field: an absent field reads as
`undefined`, which is falsy. -/
def jsFieldTruthy : Option JsValue → Bool
  | none => false
  | some v => truthy v

/-- Reading a named field out of a field list; absent fields read as
`undefined`. -/
def jsField (fields : List (String × JsValue)) (key : String) : JsValue :=
  ((fields.find? (fun p => p.1 == key)).map Prod.snd).getD JsValue.vundefined

/-- The `action` discriminator of an outgoing request
(src/connection.js builds requests with action create, invoke or destroy). -/
inductive Action where
  | create
  | invoke
  | destroy
  deriving DecidableEq, Repr

/-- An outgoing request as built in src/connection.js before the queue stamps
a requestID onto it.  Only the fields the connection itself writes are
modelled; opaque payload fields (spec, args) carry no information the client
ever reads back. -/
structure OutRequest where
  action : Action
  instanceID : Option String := none
  name : Option String := none
  method : Option String := none
  deriving DecidableEq, Repr

/-- A result of a queued request with the requestID removed, as handed to
`deferredResult.resolve` by handleResult (src/unnamed/part_001 line 87). -/
structure StrippedResult where
  error : Option JsValue
  rest : List (String × JsValue)
  deriving DecidableEq, Repr

/-- Settlement of a future stored in the request queue. -/
inductive RQOutcome where
  | resolved (v : StrippedResult)
  | rejected (e : JsValue)
  deriving DecidableEq, Repr

/-- An incoming result message routed to handleResult: it carries the
requestID it correlates to, an optional error field, and the remaining
fields. -/
structure ResultMsg where
  requestID : Nat
  error : Option JsValue
  rest : List (String × JsValue)
  deriving DecidableEq, Repr

/-- The result with its requestID removed (`delete result.requestID`). -/
def ResultMsg.stripID (r : ResultMsg) : StrippedResult :=
  ⟨r.error, r.rest⟩

/-- State of the RequestQueue (src/unnamed/part_001): the next request ID,
the pending batch, the set of request IDs holding a stored deferred result
(`deferredResults` table keys), and the settlements delivered to those
futures so far (a future, once settled, keeps its outcome even after its
table entry is deleted). -/
structure RequestQueue where
  nextRequestID : Nat
  requestQueue : List (Nat × OutRequest)
  tableIDs : List Nat
  settled : List (Nat × RQOutcome)
  deriving DecidableEq, Repr

/-- Method `add` (src/unnamed/part_001 lines 38-54): stamps the next request ID onto
the request, stores a deferred result under that ID, queues the request and
returns (the promise for) that ID. -/
def RequestQueue.add (q : RequestQueue) (req : OutRequest) : RequestQueue × Nat :=
  let requestID := q.nextRequestID
  ({ q with
      nextRequestID := requestID + 1,
      requestQueue := q.requestQueue ++ [(requestID, req)],
      tableIDs := q.tableIDs ++ [requestID] },
   requestID)

/-- Method `drain` (src/unnamed/part_001 lines 61-65): empties the queue and returns
what was in it. -/
def RequestQueue.drain (q : RequestQueue) : RequestQueue × List (Nat × OutRequest) :=
  ({ q with requestQueue := [] }, q.requestQueue)

/-- Method `handleResult` (src/unnamed/part_001 lines 73-91): looks up the stored
deferred result for the message's requestID; if absent the message is
ignored; if present, a truthy error field rejects the future with that error,
otherwise the future is resolved with the result minus its requestID; the
table entry is removed. -/
def RequestQueue.handleResult (q : RequestQueue) (result : ResultMsg) : RequestQueue :=
  let requestID := result.requestID
  if requestID ∈ q.tableIDs then
    if jsFieldTruthy result.error then
      { q with
          tableIDs := q.tableIDs.erase requestID,
          settled := q.settled ++ [(requestID, RQOutcome.rejected (result.error.getD JsValue.vundefined))] }
    else
      { q with
          tableIDs := q.tableIDs.erase requestID,
          settled := q.settled ++ [(requestID, RQOutcome.resolved result.stripID)] }
  else q

/-- Settlement of a per-invocation future held by a remote-object closure in
src/connection.js (registerRemoteObject). -/
inductive InvOutcome where
  | resolved (v : JsValue)
  | rejected (e : JsValue)
  deriving DecidableEq, Repr

/-- Observable effects of the client, in the order they are performed:
poll GETs (with the acknowledged last-seen id and the poll generation),
aborts, timer operations, message deliveries to onPoll, the poller invoking
its onLoss callback, event-trigger firings on the connection and on remote
objects, settlements of invocation futures, send-batch POSTs, the abort of a
send batch, and the best-effort DELETE. -/
inductive Event where
  | pollGet (ack : Option Int) (pollID : Nat)
  | pollAbort (pollID : Nat)
  | timerSet
  | timerClear
  | deliver (msgs : List JsValue)
  | lossSignal (err : JsValue)
  | connFire (event : String) (args : List JsValue)
  | roFire (instanceID : String) (event : String)
  | invSettle (instanceID : String) (resultID : Nat) (outcome : InvOutcome)
  | post (body : List (Nat × OutRequest))
  | abortSend
  | httpDelete
  deriving DecidableEq, Repr

/-- Whether an event is a connection-level trigger firing. -/
def Event.isConnFire : Event → Bool
  | Event.connFire _ _ => true
  | _ => false

/-- Whether an event is a poll GET being issued. -/
def Event.isPollGet : Event → Bool
  | Event.pollGet _ _ => true
  | _ => false

/-- Whether an event is the poller invoking its onLoss callback. -/
def Event.isLossSignal : Event → Bool
  | Event.lossSignal _ => true
  | _ => false

/-- Whether an event is a remote-object trigger firing. -/
def Event.isRoFire : Event → Bool
  | Event.roFire _ _ => true
  | _ => false

/-- Whether an event is an invocation-future settlement. -/
def Event.isInvSettle : Event → Bool
  | Event.invSettle _ _ _ => true
  | _ => false

/-- Whether an event is a send-batch POST. -/
def Event.isPost : Event → Bool
  | Event.post _ => true
  | _ => false

/-- The requests carried by the POST events of a trace, in order. -/
def postedOf (evs : List Event) : List (Nat × OutRequest) :=
  (evs.filterMap (fun e =>
    match e with
    | Event.post body => some body
    | _ => none)).flatten

/-- One message of a poll response: a message id and the wrapped payload
(`message.message` is what the poller forwards to onPoll). -/
structure PollMsg where
  id : Int
  message : JsValue
  deriving DecidableEq, Repr

/-- State of the Poller (src/poller.js): the normalized poll timeout, the
identity (poll generation) of the outstanding GET if any, whether the
watchdog timer is armed, the generation counter `curPollID`, the last seen
message id `latestID` (initially -1), and the stopped flag. -/
structure PollerState where
  pollTimeout : Nat
  pendingRequest : Option Nat
  timeoutArmed : Bool
  curPollID : Nat
  latestID : Int
  stopped : Bool
  deriving DecidableEq, Repr

/-- Function `poll` (src/poller.js lines 81-97 for the issuing part): a no-op when
stopped; otherwise increments the generation counter, issues a GET carrying
the last-seen id when one has been seen, and arms the watchdog. -/
def Poller.poll (s : PollerState) : PollerState × List Event :=
  if s.stopped then (s, [])
  else
    let thisPollID := s.curPollID + 1
    let ack : Option Int := if s.latestID ≥ 0 then some s.latestID else none
    ({ s with curPollID := thisPollID, pendingRequest := some thisPollID, timeoutArmed := true },
     [Event.pollGet ack thisPollID, Event.timerSet])

/-- The fulfillment handler of a poll GET (src/poller.js lines 99-130),
tagged with the generation `thisPollID` the closure captured: a stale
generation is discarded; otherwise the watchdog is cleared; if stopped
nothing more happens; otherwise already-seen messages are filtered out,
`latestID` is set to the id of the last surviving message (when any), the
surviving payloads are delivered, and the next poll is issued. -/
def Poller.onResponse (thisPollID : Nat) (messages : List PollMsg) (s : PollerState) :
    PollerState × List Event :=
  if thisPollID ≠ s.curPollID then (s, [])
  else
    let s1 := { s with pendingRequest := none, timeoutArmed := false }
    if s1.stopped then (s1, [Event.timerClear])
    else
      let fresh := messages.filter (fun m => m.id > s1.latestID)
      match fresh.getLast? with
      | none =>
        let next := Poller.poll s1
        (next.1, Event.timerClear :: next.2)
      | some lastMsg =>
        let s2 := { s1 with latestID := lastMsg.id }
        let next := Poller.poll s2
        (next.1, Event.timerClear :: Event.deliver (fresh.map PollMsg.message) :: next.2)

/-- The rejection handler of a poll GET (src/poller.js lines 131-146),
tagged with the generation the closure captured: a stale generation is
discarded; otherwise the watchdog is cleared and, unless stopped, the onLoss
callback is invoked with the error. -/
def Poller.onError (thisPollID : Nat) (error : JsValue) (s : PollerState) :
    PollerState × List Event :=
  if thisPollID ≠ s.curPollID then (s, [])
  else
    let s1 := { s with pendingRequest := none, timeoutArmed := false }
    if s1.stopped then (s1, [Event.timerClear])
    else (s1, [Event.timerClear, Event.lossSignal error])

/-- Handler `onTimeout` (src/poller.js lines 152-157): aborts the outstanding GET and
issues a new poll immediately.  The source dereferences `pendingRequest`
unconditionally, so the handler is only meaningful while a request is
outstanding; `none` models the absence of that precondition. -/
def Poller.onTimeout (s : PollerState) : Option (PollerState × List Event) :=
  match s.pendingRequest with
  | none => none
  | some pollID =>
    let s1 := { s with pendingRequest := none, timeoutArmed := false }
    let next := Poller.poll s1
    some (next.1, Event.pollAbort pollID :: next.2)

/-- Method `stop` (src/poller.js lines 68-76): sets the stopped flag and, if a
request is outstanding, clears its watchdog and aborts it. -/
def Poller.stop (s : PollerState) : PollerState × List Event :=
  let s1 := { s with stopped := true }
  match s1.pendingRequest with
  | some pollID =>
    ({ s1 with pendingRequest := none, timeoutArmed := false },
     [Event.timerClear, Event.pollAbort pollID])
  | none => (s1, [])

/-- Per-instance state kept by `registerRemoteObject` in src/connection.js
together with the remote object it creates: the connection-closure flag
`destroyed` (line 225), the RemoteObject's own flag (src/remoteObject.js
line 31) modelled as `roDestroyed`, the next invocation result ID, and the
result IDs with a pending deferred result. -/
structure InstanceState where
  destroyed : Bool
  roDestroyed : Bool
  nextResultID : Nat
  deferredResults : List Nat
  deriving DecidableEq, Repr

/-- Looks up the registration of an instance ID (the `instances` table is a
JavaScript object keyed by instance ID, so keys are unique). -/
def getInstance : List (String × InstanceState) → String → Option InstanceState
  | [], _ => none
  | p :: rest, instanceID =>
    if p.1 == instanceID then some p.2 else getInstance rest instanceID

/-- Overwrites the registration of an instance ID in place. -/
def setInstance : List (String × InstanceState) → String → InstanceState →
    List (String × InstanceState)
  | [], _, _ => []
  | p :: rest, instanceID, inst =>
    if p.1 == instanceID then (instanceID, inst) :: rest
    else p :: setInstance rest instanceID inst

/-- State of a Connection (src/connection.js, first revision): the connected
flag, the RequestQueue, the in-flight send batch if any, the table of live
remote-object registrations, and the Poller's state. -/
structure ConnState where
  connected : Bool
  requests : RequestQueue
  pendingRequest : Option (List (Nat × OutRequest))
  instances : List (String × InstanceState)
  poller : PollerState
  deriving DecidableEq, Repr

/-- Function `sendQueuedRequests` (src/connection.js lines 168-189): a no-op while a
send batch is in flight; otherwise drains the queue and, when non-empty,
POSTs the drained batch and records it as the in-flight batch. -/
def ConnState.sendQueuedRequests (s : ConnState) : ConnState × List Event :=
  match s.pendingRequest with
  | some _ => (s, [])
  | none =>
    let drained := s.requests.drain
    if drained.2.length > 0 then
      ({ s with requests := drained.1, pendingRequest := some drained.2 },
       [Event.post drained.2])
    else
      ({ s with requests := drained.1 }, [])

/-- Function `sendRequest` (src/connection.js lines 159-163): queues the request and
immediately attempts to flush; returns the request ID whose future the
caller receives. -/
def ConnState.sendRequest (req : OutRequest) (s : ConnState) :
    (ConnState × List Event) × Nat :=
  let added := s.requests.add req
  let flushed := ConnState.sendQueuedRequests { s with requests := added.1 }
  (flushed, added.2)

/-- Function `destroy` (src/connection.js lines 146-151): enqueues a destroy request
for the instance; the result future is never awaited. -/
def ConnState.destroy (instanceID : String) (s : ConnState) : ConnState × List Event :=
  (ConnState.sendRequest { action := Action.destroy, instanceID := some instanceID } s).1

/-- Callback `onDestroy` for one instance (src/connection.js lines 264-277): sets the
connection-side destroyed flag, rejects every pending invocation future with
the string error `remote object destroyed`, clears the per-call table, and
enqueues a server-side destroy for the instance. -/
def ConnState.onDestroy (instanceID : String) (s : ConnState) : ConnState × List Event :=
  match getInstance s.instances instanceID with
  | none => (s, [])
  | some inst =>
    let pending := inst.deferredResults
    let s1 := { s with
      instances := setInstance s.instances instanceID
        { inst with destroyed := true, deferredResults := [] } }
    let rejectEvents := pending.map (fun resultID =>
      Event.invSettle instanceID resultID
        (InvOutcome.rejected (JsValue.vstr "remote object destroyed")))
    let afterDestroy := ConnState.destroy instanceID s1
    (afterDestroy.1, rejectEvents ++ afterDestroy.2)

/-- Hook `control.onLoss` (src/remoteObject.js lines 77-82) for one registered
instance: marks the RemoteObject destroyed, fires its `loss` event, invokes
the connection's onDestroy callback, then fires its `destroy` event. -/
def ConnState.proxyOnLoss (instanceID : String) (s : ConnState) : ConnState × List Event :=
  match getInstance s.instances instanceID with
  | none => (s, [])
  | some inst =>
    let s1 := { s with
      instances := setInstance s.instances instanceID { inst with roDestroyed := true } }
    let afterDestroy := ConnState.onDestroy instanceID s1
    (afterDestroy.1,
     Event.roFire instanceID "loss" :: (afterDestroy.2 ++ [Event.roFire instanceID "destroy"]))

/-- Method `self.destroy` (src/remoteObject.js lines 64-71) for one registered
instance: throws when already destroyed; otherwise marks the RemoteObject
destroyed, invokes the connection's onDestroy callback, and fires its
`destroy` event. -/
def ConnState.proxyDestroy (instanceID : String) (s : ConnState) :
    Except String (ConnState × List Event) :=
  match getInstance s.instances instanceID with
  | none => Except.error "no such instance"
  | some inst =>
    if inst.roDestroyed then Except.error "already destroyed"
    else
      let s1 := { s with
        instances := setInstance s.instances instanceID { inst with roDestroyed := true } }
      let afterDestroy := ConnState.onDestroy instanceID s1
      Except.ok (afterDestroy.1, afterDestroy.2 ++ [Event.roFire instanceID "destroy"])

/-- The loop body of `instanceIDs.forEach(... onLoss ...)` inside disconnect
(src/connection.js lines 100-103). -/
def ConnState.lossAll (instanceIDs : List String) (s : ConnState) : ConnState × List Event :=
  match instanceIDs with
  | [] => (s, [])
  | instanceID :: rest =>
    let first := ConnState.proxyOnLoss instanceID s
    let others := ConnState.lossAll rest first.1
    (others.1, first.2 ++ others.2)

/-- Method `disconnect` (src/connection.js lines 92-116): throws when already
disconnected; otherwise clears the connected flag, fires `disconnect`,
notifies every registered instance of its loss, empties the instance table,
aborts the in-flight send batch if any, stops the poller, and issues the
best-effort DELETE. -/
def ConnState.disconnect (s : ConnState) : Except String (ConnState × List Event) :=
  if s.connected then
    let s1 : ConnState := { s with connected := false }
    let instanceIDs := s1.instances.map Prod.fst
    let afterLoss := ConnState.lossAll instanceIDs s1
    let s2 := { afterLoss.1 with instances := ([] : List (String × InstanceState)) }
    let abortEvents : List Event :=
      match s2.pendingRequest with
      | some _ => [Event.abortSend]
      | none => []
    let stopResult := Poller.stop s2.poller
    let s3 := { s2 with poller := stopResult.1 }
    Except.ok (s3,
      Event.connFire "disconnect" [] ::
        (afterLoss.2 ++ abortEvents ++ stopResult.2 ++ [Event.httpDelete]))
  else Except.error "already disconnected"

/-- Function `onLoss` of the connection (src/connection.js lines 137-140): fires
`loss` with the error, then disconnects. -/
def ConnState.onLoss (error : JsValue) (s : ConnState) :
    Except String (ConnState × List Event) :=
  match ConnState.disconnect s with
  | Except.ok result => Except.ok (result.1, Event.connFire "loss" [error] :: result.2)
  | Except.error e => Except.error e

/-- A genuine poll request failure as seen by the whole client: the poller's
rejection handler runs and, when it signals loss, the connection's onLoss
runs. -/
def ConnState.pollFailure (thisPollID : Nat) (error : JsValue) (s : ConnState) :
    Except String (ConnState × List Event) :=
  let pollerResult := Poller.onError thisPollID error s.poller
  let s1 := { s with poller := pollerResult.1 }
  if Event.lossSignal error ∈ pollerResult.2 then
    match ConnState.onLoss error s1 with
    | Except.ok result => Except.ok (result.1, pollerResult.2 ++ result.2)
    | Except.error msg => Except.error msg
  else Except.ok (s1, pollerResult.2)

/-- Closure `invoke` for one registered instance (src/connection.js lines 233-261,
up to the point the request is sent): throws when the proxy is destroyed;
otherwise allocates a call-local result ID, records a pending deferred
result for it, and sends an invoke request.  Returns the allocated result
ID. -/
def ConnState.invoke (instanceID : String) (method : String) (s : ConnState) :
    Except String ((ConnState × List Event) × Nat) :=
  match getInstance s.instances instanceID with
  | none => Except.error "no such instance"
  | some inst =>
    if inst.destroyed then Except.error "remote object already destroyed"
    else
      let resultID := inst.nextResultID
      let s1 := { s with
        instances := setInstance s.instances instanceID
          { inst with
              nextResultID := resultID + 1,
              deferredResults := inst.deferredResults ++ [resultID] } }
      let sent := ConnState.sendRequest
        { action := Action.invoke, instanceID := some instanceID, method := some method } s1
      Except.ok (sent.1, resultID)

/-- The fulfillment handler of an invocation's request future
(src/connection.js lines 248-252), tagged with the instance and result ID
the closure captured: when the proxy has been destroyed in the interim the
late result is discarded; otherwise the table entry is removed and the
invocation future resolves with the result's `result` field. -/
def ConnState.invokeFulfilled (instanceID : String) (resultID : Nat)
    (result : StrippedResult) (s : ConnState) : ConnState × List Event :=
  match getInstance s.instances instanceID with
  | none => (s, [])
  | some inst =>
    if inst.destroyed then (s, [])
    else
      let s1 := { s with
        instances := setInstance s.instances instanceID
          { inst with deferredResults := inst.deferredResults.erase resultID } }
      (s1, [Event.invSettle instanceID resultID
              (InvOutcome.resolved (jsField result.rest "result"))])

/-- The rejection handler of an invocation's request future
(src/connection.js lines 253-258), tagged with the instance and result ID
the closure captured: when the proxy has been destroyed in the interim the
late error is discarded; otherwise the table entry is removed and the
invocation future rejects with the error. -/
def ConnState.invokeRejected (instanceID : String) (resultID : Nat)
    (error : JsValue) (s : ConnState) : ConnState × List Event :=
  match getInstance s.instances instanceID with
  | none => (s, [])
  | some inst =>
    if inst.destroyed then (s, [])
    else
      let s1 := { s with
        instances := setInstance s.instances instanceID
          { inst with deferredResults := inst.deferredResults.erase resultID } }
      (s1, [Event.invSettle instanceID resultID (InvOutcome.rejected error)])

/-- An operation performed on one RequestQueue over its lifetime. -/
inductive RQOp where
  | addReq (req : OutRequest)
  | drainReqs
  deriving DecidableEq, Repr

/-- A RequestQueue together with the history of what happened to it: the
request IDs assigned in order, the stamped requests in enqueue order, and
the batches returned by successive drains. -/
structure RQTrace where
  queue : RequestQueue
  assigned : List Nat
  added : List (Nat × OutRequest)
  drained : List (List (Nat × OutRequest))
  deriving DecidableEq, Repr

/-- One operation applied to the queue, history recorded. -/
def RQTrace.step (t : RQTrace) (op : RQOp) : RQTrace :=
  match op with
  | RQOp.addReq req =>
    let result := t.queue.add req
    { t with
        queue := result.1,
        assigned := t.assigned ++ [result.2],
        added := t.added ++ [(result.2, req)] }
  | RQOp.drainReqs =>
    let result := t.queue.drain
    { t with queue := result.1, drained := t.drained ++ [result.2] }

/-- A freshly created RequestQueue (src/unnamed/part_001 lines 20-30) with an
empty history. -/
def RQTrace.init : RQTrace :=
  ⟨⟨0, [], [], []⟩, [], [], []⟩

/-- Runs a sequence of queue operations from a fresh queue. -/
def RQTrace.run (ops : List RQOp) : RQTrace :=
  ops.foldl RQTrace.step RQTrace.init

/-- A member installed on a RemoteObject instance: either the generated
forwarding method for a remote method name, or one of the built-in members
assigned after the method loop. -/
inductive Member where
  | remoteMethod (methodName : String)
  | builtinOn
  | builtinOff
  | builtinDestroy
  deriving DecidableEq, Repr

/-- JavaScript property assignment on an object represented as a key-value
list without duplicate keys: overwrites the slot when the key exists,
appends otherwise. -/
def jsAssign : List (String × Member) → String → Member → List (String × Member)
  | [], key, val => [(key, val)]
  | p :: rest, key, val =>
    if p.1 == key then (key, val) :: rest
    else p :: jsAssign rest key val

/-- Property lookup on such an object. -/
def memberLookup (obj : List (String × Member)) (key : String) : Option Member :=
  (obj.find? (fun p => p.1 == key)).map Prod.snd

/-- The members of a RemoteObject as assigned by its constructor
(src/remoteObject.js lines 28-71): first one forwarding method per name in
the server-supplied list, then the built-ins `on`, `off` and `destroy`. -/
def RemoteObject.members (methods : List String) : List (String × Member) :=
  let withMethods := methods.foldl (fun obj m => jsAssign obj m (Member.remoteMethod m)) []
  let withOn := jsAssign withMethods "on" Member.builtinOn
  let withOff := jsAssign withOn "off" Member.builtinOff
  jsAssign withOff "destroy" Member.builtinDestroy

/-- The message payloads delivered to onPoll by the events of a trace. -/
def deliveredOf (evs : List Event) : List (List JsValue) :=
  evs.filterMap (fun e =>
    match e with
    | Event.deliver msgs => some msgs
    | _ => none)

/-- Whether a queue-future settlement is a rejection. -/
def RQOutcome.isRejected : RQOutcome → Bool
  | RQOutcome.rejected _ => true
  | _ => false

/-- A poller with one outstanding GET of generation 1 and nothing seen yet. -/
def activePoller : PollerState :=
  ⟨15000, some 1, true, 1, -1, false⟩

/-- A poll response whose message ids are not in ascending order. -/
def unsortedResponse : List PollMsg :=
  [⟨5, JsValue.vnum 50⟩, ⟨3, JsValue.vnum 30⟩]

/-- A poll response whose message ids are in ascending order. -/
def ascendingResponse : List PollMsg :=
  [⟨3, JsValue.vnum 30⟩, ⟨5, JsValue.vnum 50⟩]

/-- A connected client with one live proxy i1 that has one pending
invocation future (result ID 0), an empty send queue and no in-flight
batch. -/
def oneProxyState : ConnState :=
  ⟨true, ⟨0, [], [], []⟩, none, [("i1", ⟨false, false, 1, [0]⟩)], activePoller⟩

/-- A connected client with an in-flight create batch whose future (request
ID 0) lives only in the RequestQueue, plus one live proxy. -/
def inFlightCreateState : ConnState :=
  ⟨true, ⟨1, [], [0], []⟩,
   some [(0, { action := Action.create, name := some "Foo" })],
   [("i1", ⟨false, false, 0, []⟩)], activePoller⟩

/-- A connected client whose single proxy i1 has already been destroyed. -/
def destroyedProxyState : ConnState :=
  ⟨true, ⟨0, [], [], []⟩, none, [("i1", ⟨true, true, 1, []⟩)], activePoller⟩

/-- A queue holding exactly one stored future, for request ID 0. -/
def oneEntryQueue : RequestQueue :=
  ⟨1, [], [0], []⟩

/-- A result that carries a falsy error field. -/
def falsyErrorResult : ResultMsg :=
  ⟨0, some (JsValue.vbool false), []⟩

/-- An inert connection state, used only as a fallback value. -/
def emptyConn : ConnState :=
  ⟨false, ⟨0, [], [], []⟩, none, [], ⟨0, none, false, 0, -1, true⟩⟩

/-- The state and trace of a successful teardown, with an inert fallback for
the error case. -/
def okParts (r : Except String (ConnState × List Event)) : ConnState × List Event :=
  r.toOption.getD (emptyConn, [])

theorem RQTrace.step_inv (t : RQTrace) (op : RQOp)
    (h1 : t.queue.nextRequestID = t.assigned.length)
    (h2 : t.assigned = List.range t.assigned.length)
    (h3 : t.added.map Prod.fst = t.assigned)
    (h4 : t.drained.flatten ++ t.queue.requestQueue = t.added) :
    (t.step op).queue.nextRequestID = (t.step op).assigned.length ∧
    (t.step op).assigned = List.range (t.step op).assigned.length ∧
    (t.step op).added.map Prod.fst = (t.step op).assigned ∧
    (t.step op).drained.flatten ++ (t.step op).queue.requestQueue = (t.step op).added := by
  cases op with
  | addReq req =>
    refine ⟨?_, ?_, ?_, ?_⟩
    · simp [RQTrace.step, RequestQueue.add, h1]
    · simp only [RQTrace.step, RequestQueue.add]
      rw [List.length_append, List.length_singleton, List.range_succ, ← h2, h1, h2]
    · simp [RQTrace.step, RequestQueue.add, h3]
    · simp only [RQTrace.step, RequestQueue.add]
      rw [← List.append_assoc, h4]
  | drainReqs =>
    refine ⟨h1, h2, h3, ?_⟩
    simp only [RQTrace.step, RequestQueue.drain]
    rw [List.flatten_append, List.flatten_cons, List.flatten_nil, List.append_nil,
      List.append_nil, h4]

theorem RQTrace.foldl_inv (ops : List RQOp) (t : RQTrace)
    (h1 : t.queue.nextRequestID = t.assigned.length)
    (h2 : t.assigned = List.range t.assigned.length)
    (h3 : t.added.map Prod.fst = t.assigned)
    (h4 : t.drained.flatten ++ t.queue.requestQueue = t.added) :
    (ops.foldl RQTrace.step t).queue.nextRequestID = (ops.foldl RQTrace.step t).assigned.length ∧
    (ops.foldl RQTrace.step t).assigned = List.range (ops.foldl RQTrace.step t).assigned.length ∧
    (ops.foldl RQTrace.step t).added.map Prod.fst = (ops.foldl RQTrace.step t).assigned ∧
    (ops.foldl RQTrace.step t).drained.flatten ++ (ops.foldl RQTrace.step t).queue.requestQueue
      = (ops.foldl RQTrace.step t).added := by
  induction ops generalizing t with
  | nil => exact ⟨h1, h2, h3, h4⟩
  | cons op rest ih =>
    have h := RQTrace.step_inv t op h1 h2 h3 h4
    simpa using ih (t.step op) h.1 h.2.1 h.2.2.1 h.2.2.2

/-- C7: over any sequence of add and drain operations on one RequestQueue,
the assigned correlation ids are strictly increasing in enqueue order (hence
unique and never reused), each drain atomically empties the pending batch and
returns exactly what was queued, and the concatenation of all drained batches
followed by the still-queued requests is exactly the list of enqueued
requests in enqueue order — so no request is returned by two drains or
dropped. -/
theorem C7_correlation_ids_unique_and_drain_exact (ops : List RQOp) :
    ((RQTrace.run ops).assigned.Pairwise (· < ·)) ∧
    ((RQTrace.run ops).assigned.Nodup) ∧
    ((RQTrace.run ops).added.map Prod.fst = (RQTrace.run ops).assigned) ∧
    ((RQTrace.run ops).drained.flatten ++ (RQTrace.run ops).queue.requestQueue
        = (RQTrace.run ops).added) ∧
    (∀ t : RQTrace,
        (t.step RQOp.drainReqs).queue.requestQueue = [] ∧
        (t.step RQOp.drainReqs).drained = t.drained ++ [t.queue.requestQueue]) := by
  have h := RQTrace.foldl_inv ops RQTrace.init rfl rfl rfl rfl
  have hrange := h.2.1
  refine ⟨?_, ?_, h.2.2.1, h.2.2.2, ?_⟩
  · rw [RQTrace.run, hrange]
    exact List.pairwise_lt_range _
  · rw [RQTrace.run, hrange]
    exact List.nodup_range _
  · intro t
    exact ⟨rfl, rfl⟩

/-- C6 (amended): handleResult ignores results with no stored future (no-op
on the whole queue); when a stored future exists it is rejected when the
result's error field is truthy, and otherwise — error field absent or falsy —
resolved with the remaining payload (the correlation id removed); the table
entry for that id is removed in either case, and table entries for other ids
are unaffected. -/
theorem C6_handleResult_routing (q : RequestQueue) (result : ResultMsg) :
    (result.requestID ∉ q.tableIDs → q.handleResult result = q) ∧
    (result.requestID ∈ q.tableIDs →
      (q.handleResult result).tableIDs = q.tableIDs.erase result.requestID ∧
      (jsFieldTruthy result.error = true →
        (q.handleResult result).settled
          = q.settled ++ [(result.requestID,
              RQOutcome.rejected (result.error.getD JsValue.vundefined))]) ∧
      (jsFieldTruthy result.error = false →
        (q.handleResult result).settled
          = q.settled ++ [(result.requestID, RQOutcome.resolved result.stripID)]) ∧
      (q.handleResult result).requestQueue = q.requestQueue ∧
      (q.handleResult result).nextRequestID = q.nextRequestID ∧
      (∀ rid, rid ≠ result.requestID →
        (rid ∈ (q.handleResult result).tableIDs ↔ rid ∈ q.tableIDs))) := by
  constructor
  · intro hmem
    simp [RequestQueue.handleResult, hmem]
  · intro hmem
    by_cases herr : jsFieldTruthy result.error = true
    · refine ⟨?_, ?_, ?_, ?_, ?_, ?_⟩ <;>
        simp [RequestQueue.handleResult, hmem, herr]
      intro rid hrid
      exact List.mem_erase_of_ne hrid
    · have herr' : jsFieldTruthy result.error = false := by
        revert herr
        cases jsFieldTruthy result.error <;> simp
      refine ⟨?_, ?_, ?_, ?_, ?_, ?_⟩ <;>
        simp [RequestQueue.handleResult, hmem, herr']
      intro rid hrid
      exact List.mem_erase_of_ne hrid

/-- Counterexample to C6 as stated: a result carrying an error field whose
value is falsy (here the boolean false) resolves the stored future instead of
rejecting it, because the source tests the field with a truthiness check. -/
theorem C6_counterexample :
    falsyErrorResult.error.isSome = true ∧
    (oneEntryQueue.handleResult falsyErrorResult).settled
      = [(0, RQOutcome.resolved ⟨some (JsValue.vbool false), []⟩)] ∧
    (oneEntryQueue.handleResult falsyErrorResult).settled.all
      (fun p => !p.2.isRejected) = true := by
  decide

/-- Witness for C6 at a stored future for id 0 and a truthy-error result. -/
theorem C6_witness :
    (0 ∈ oneEntryQueue.tableIDs) ∧
    (oneEntryQueue.handleResult ⟨0, some (JsValue.vstr "boom"), []⟩).tableIDs
      = oneEntryQueue.tableIDs.erase 0 := by
  refine ⟨by decide, ?_⟩
  exact ((C6_handleResult_routing oneEntryQueue ⟨0, some (JsValue.vstr "boom"), []⟩).2
    (by decide)).1

theorem setInstance_map_fst (l : List (String × InstanceState)) (iid : String)
    (v : InstanceState) :
    (setInstance l iid v).map Prod.fst = l.map Prod.fst := by
  induction l with
  | nil => rfl
  | cons p rest ih =>
    by_cases hp : p.1 = iid
    · have hb : (p.1 == iid) = true := by simp [beq_iff_eq, hp]
      simp [setInstance, hb, hp]
    · have hb : (p.1 == iid) = false := by simp [hp]
      simp [setInstance, hb, ih]

theorem getInstance_setInstance_ne (l : List (String × InstanceState)) (iid iid' : String)
    (v : InstanceState) (h : iid' ≠ iid) :
    getInstance (setInstance l iid v) iid' = getInstance l iid' := by
  induction l with
  | nil => rfl
  | cons p rest ih =>
    by_cases hp : p.1 = iid
    · have hb : (p.1 == iid) = true := by simp [beq_iff_eq, hp]
      have hb2 : (iid == iid') = false := by simp [Ne.symm h]
      have hb3 : (p.1 == iid') = false := by rw [hp]; exact hb2
      simp [setInstance, getInstance, hb, hb2, hb3]
    · have hb : (p.1 == iid) = false := by simp [hp]
      by_cases hp' : p.1 = iid'
      · have hb2 : (p.1 == iid') = true := by simp [beq_iff_eq, hp']
        simp [setInstance, getInstance, hb, hb2]
      · have hb2 : (p.1 == iid') = false := by simp [hp']
        simp [setInstance, getInstance, hb, hb2, ih]

theorem getInstance_setInstance_self (l : List (String × InstanceState)) (iid : String)
    (v inst : InstanceState) (h : getInstance l iid = some inst) :
    getInstance (setInstance l iid v) iid = some v := by
  induction l with
  | nil => cases h
  | cons p rest ih =>
    by_cases hp : p.1 = iid
    · have hb : (p.1 == iid) = true := by simp [beq_iff_eq, hp]
      simp [setInstance, getInstance, hb]
    · have hb : (p.1 == iid) = false := by simp [hp]
      simp only [getInstance, hb, Bool.false_eq_true, if_false] at h
      simp only [setInstance, hb, Bool.false_eq_true, if_false, getInstance]
      exact ih h

theorem getInstance_isSome_of_mem (l : List (String × InstanceState)) (iid : String)
    (h : iid ∈ l.map Prod.fst) :
    ∃ inst, getInstance l iid = some inst := by
  induction l with
  | nil => cases h
  | cons p rest ih =>
    by_cases hp : p.1 = iid
    · have hb : (p.1 == iid) = true := by simp [beq_iff_eq, hp]
      exact ⟨p.2, by simp [getInstance, hb]⟩
    · have hb : (p.1 == iid) = false := by simp [hp]
      have hmem : iid ∈ rest.map Prod.fst := by
        rw [List.map_cons] at h
        rcases List.mem_cons.mp h with h1 | h1
        · exact absurd h1.symm hp
        · exact h1
      rcases ih hmem with ⟨inst, hinst⟩
      exact ⟨inst, by simp [getInstance, hb, hinst]⟩

theorem getInstance_of_mem_nodup (l : List (String × InstanceState)) (iid : String)
    (inst : InstanceState)
    (hnd : (l.map Prod.fst).Nodup) (h : (iid, inst) ∈ l) :
    getInstance l iid = some inst := by
  induction l with
  | nil => cases h
  | cons p rest ih =>
    rw [List.map_cons] at hnd
    have hnd' := List.nodup_cons.mp hnd
    rcases List.mem_cons.mp h with h1 | h1
    · cases h1.symm
      simp [getInstance, beq_iff_eq]
    · have hmem : iid ∈ rest.map Prod.fst := by
        have hm := List.mem_map_of_mem Prod.fst h1
        simpa using hm
      have hp : p.1 ≠ iid := fun he => hnd'.1 (he ▸ hmem)
      have hb : (p.1 == iid) = false := by simp [hp]
      simp only [getInstance, hb, Bool.false_eq_true, if_false]
      exact ih hnd'.2 h1

theorem postedOf_append (evs1 evs2 : List Event) :
    postedOf (evs1 ++ evs2) = postedOf evs1 ++ postedOf evs2 := by
  simp [postedOf, List.filterMap_append]

theorem mem_posted_persist (x : Nat × OutRequest) (evs1 evs2 : List Event)
    (q1 q2 qext : List (Nat × OutRequest))
    (hstep : postedOf evs2 ++ q2 = q1 ++ qext)
    (hx : x ∈ postedOf evs1 ++ q1) :
    x ∈ postedOf (evs1 ++ evs2) ++ q2 := by
  rw [postedOf_append, List.append_assoc]
  rcases List.mem_append.mp hx with h | h
  · exact List.mem_append_left _ h
  · refine List.mem_append_right _ ?_
    rw [hstep]
    exact List.mem_append_left _ h

theorem not_connFire_of_kind (e : Event)
    (h : e.isRoFire = true ∨ e.isInvSettle = true ∨ e.isPost = true) :
    e.isConnFire = false := by
  cases e <;> simp_all [Event.isRoFire, Event.isInvSettle, Event.isPost, Event.isConnFire]

theorem not_pollGet_of_kind (e : Event)
    (h : e.isRoFire = true ∨ e.isInvSettle = true ∨ e.isPost = true) :
    e.isPollGet = false := by
  cases e <;> simp_all [Event.isRoFire, Event.isInvSettle, Event.isPost, Event.isPollGet]

theorem not_lossSignal_of_kind (e : Event)
    (h : e.isRoFire = true ∨ e.isInvSettle = true ∨ e.isPost = true) :
    e.isLossSignal = false := by
  cases e <;> simp_all [Event.isRoFire, Event.isInvSettle, Event.isPost, Event.isLossSignal]

theorem sendQueuedRequests_spec (s : ConnState) :
    (ConnState.sendQueuedRequests s).1.connected = s.connected ∧
    (ConnState.sendQueuedRequests s).1.instances = s.instances ∧
    (ConnState.sendQueuedRequests s).1.poller = s.poller ∧
    (ConnState.sendQueuedRequests s).1.requests.settled = s.requests.settled ∧
    (ConnState.sendQueuedRequests s).1.requests.tableIDs = s.requests.tableIDs ∧
    (ConnState.sendQueuedRequests s).1.requests.nextRequestID = s.requests.nextRequestID ∧
    postedOf (ConnState.sendQueuedRequests s).2
        ++ (ConnState.sendQueuedRequests s).1.requests.requestQueue
      = s.requests.requestQueue ∧
    (∀ e ∈ (ConnState.sendQueuedRequests s).2, e.isPost = true) := by
  cases hp : s.pendingRequest with
  | some b => simp [ConnState.sendQueuedRequests, hp, postedOf]
  | none =>
    by_cases hq : (s.requests.drain).2.length > 0
    · simp only [ConnState.sendQueuedRequests, hp]
      rw [if_pos hq]
      simp [RequestQueue.drain, postedOf, Event.isPost]
    · have hnil : s.requests.requestQueue = [] := by
        simp only [RequestQueue.drain] at hq
        exact List.length_eq_zero.mp (Nat.eq_zero_of_not_pos hq)
      simp only [ConnState.sendQueuedRequests, hp]
      rw [if_neg hq]
      simp [RequestQueue.drain, postedOf, hnil]

theorem sendRequest_spec (req : OutRequest) (s : ConnState) :
    (ConnState.sendRequest req s).1.1.connected = s.connected ∧
    (ConnState.sendRequest req s).1.1.instances = s.instances ∧
    (ConnState.sendRequest req s).1.1.poller = s.poller ∧
    (ConnState.sendRequest req s).1.1.requests.settled = s.requests.settled ∧
    (ConnState.sendRequest req s).1.1.requests.tableIDs
      = s.requests.tableIDs ++ [(ConnState.sendRequest req s).2] ∧
    postedOf (ConnState.sendRequest req s).1.2
        ++ (ConnState.sendRequest req s).1.1.requests.requestQueue
      = s.requests.requestQueue ++ [((ConnState.sendRequest req s).2, req)] ∧
    (∀ e ∈ (ConnState.sendRequest req s).1.2, e.isPost = true) := by
  have h := sendQueuedRequests_spec { s with requests := (s.requests.add req).1 }
  exact ⟨h.1, h.2.1, h.2.2.1, h.2.2.2.1, h.2.2.2.2.1, h.2.2.2.2.2.2.1, h.2.2.2.2.2.2.2⟩

theorem onDestroy_spec (instanceID : String) (inst : InstanceState) (s : ConnState)
    (hinst : getInstance s.instances instanceID = some inst) :
    (ConnState.onDestroy instanceID s).1.connected = s.connected ∧
    (ConnState.onDestroy instanceID s).1.poller = s.poller ∧
    (ConnState.onDestroy instanceID s).1.requests.settled = s.requests.settled ∧
    (∃ n, (ConnState.onDestroy instanceID s).1.requests.tableIDs
        = s.requests.tableIDs ++ [n]) ∧
    (∃ n, postedOf (ConnState.onDestroy instanceID s).2
          ++ (ConnState.onDestroy instanceID s).1.requests.requestQueue
        = s.requests.requestQueue
            ++ [(n, { action := Action.destroy, instanceID := some instanceID })]) ∧
    (ConnState.onDestroy instanceID s).1.instances
      = setInstance s.instances instanceID
          { inst with destroyed := true, deferredResults := [] } ∧
    (∀ rid ∈ inst.deferredResults,
      Event.invSettle instanceID rid
        (InvOutcome.rejected (JsValue.vstr "remote object destroyed"))
        ∈ (ConnState.onDestroy instanceID s).2) ∧
    (∀ e ∈ (ConnState.onDestroy instanceID s).2, e.isInvSettle = true ∨ e.isPost = true) := by
  have hposts : postedOf (inst.deferredResults.map (fun resultID =>
      Event.invSettle instanceID resultID
        (InvOutcome.rejected (JsValue.vstr "remote object destroyed")))) = [] := by
    simp [postedOf, List.filterMap_map]
  simp only [ConnState.onDestroy, hinst, ConnState.destroy]
  have hspec := sendRequest_spec
    { action := Action.destroy, instanceID := some instanceID }
    { s with instances :=
        setInstance s.instances instanceID { inst with destroyed := true, deferredResults := [] } }
  refine ⟨hspec.1, hspec.2.2.1, hspec.2.2.2.1, ?_, ?_, hspec.2.1, ?_, ?_⟩
  · exact ⟨_, hspec.2.2.2.2.1⟩
  · rw [postedOf_append, hposts, List.nil_append]
    exact ⟨_, hspec.2.2.2.2.2.1⟩
  · intro rid hr
    refine List.mem_append_left _ ?_
    exact List.mem_map_of_mem _ hr
  · intro e he
    rcases List.mem_append.mp he with h1 | h1
    · rcases List.mem_map.mp h1 with ⟨r, _, hre⟩
      left
      rw [← hre]
      rfl
    · right
      exact hspec.2.2.2.2.2.2 e h1

theorem proxyOnLoss_spec (instanceID : String) (inst : InstanceState) (s : ConnState)
    (hinst : getInstance s.instances instanceID = some inst) :
    (ConnState.proxyOnLoss instanceID s).1.connected = s.connected ∧
    (ConnState.proxyOnLoss instanceID s).1.poller = s.poller ∧
    (ConnState.proxyOnLoss instanceID s).1.requests.settled = s.requests.settled ∧
    (∃ n, (ConnState.proxyOnLoss instanceID s).1.requests.tableIDs
        = s.requests.tableIDs ++ [n]) ∧
    (∃ n, postedOf (ConnState.proxyOnLoss instanceID s).2
          ++ (ConnState.proxyOnLoss instanceID s).1.requests.requestQueue
        = s.requests.requestQueue
            ++ [(n, { action := Action.destroy, instanceID := some instanceID })]) ∧
    (ConnState.proxyOnLoss instanceID s).1.instances.map Prod.fst
      = s.instances.map Prod.fst ∧
    (∀ iid', iid' ≠ instanceID →
      getInstance (ConnState.proxyOnLoss instanceID s).1.instances iid'
        = getInstance s.instances iid') ∧
    Event.roFire instanceID "loss" ∈ (ConnState.proxyOnLoss instanceID s).2 ∧
    Event.roFire instanceID "destroy" ∈ (ConnState.proxyOnLoss instanceID s).2 ∧
    (∀ rid ∈ inst.deferredResults,
      Event.invSettle instanceID rid
        (InvOutcome.rejected (JsValue.vstr "remote object destroyed"))
        ∈ (ConnState.proxyOnLoss instanceID s).2) ∧
    (∀ e ∈ (ConnState.proxyOnLoss instanceID s).2,
      e.isRoFire = true ∨ e.isInvSettle = true ∨ e.isPost = true) := by
  have hspec := onDestroy_spec instanceID { inst with roDestroyed := true }
    { s with instances :=
        setInstance s.instances instanceID { inst with roDestroyed := true } }
    (getInstance_setInstance_self _ _ _ _ hinst)
  simp only [ConnState.proxyOnLoss, hinst]
  have hpostedCons : ∀ evd : List Event,
      postedOf (Event.roFire instanceID "loss"
        :: (evd ++ [Event.roFire instanceID "destroy"])) = postedOf evd := by
    intro evd
    simp [postedOf, List.filterMap_append]
  obtain ⟨n1, hn1⟩ := hspec.2.2.2.1
  obtain ⟨n2, hn2⟩ := hspec.2.2.2.2.1
  refine ⟨hspec.1, hspec.2.1, hspec.2.2.1, ?_, ?_, ?_, ?_, ?_, ?_, ?_, ?_⟩
  · exact ⟨n1, hn1⟩
  · rw [hpostedCons]
    exact ⟨n2, hn2⟩
  · rw [hspec.2.2.2.2.2.1, setInstance_map_fst, setInstance_map_fst]
  · intro iid' hne
    rw [hspec.2.2.2.2.2.1, getInstance_setInstance_ne _ _ _ _ hne,
      getInstance_setInstance_ne _ _ _ _ hne]
  · exact List.mem_cons_self _ _
  · refine List.mem_cons_of_mem _ (List.mem_append_right _ ?_)
    exact List.mem_singleton.mpr rfl
  · intro rid hr
    refine List.mem_cons_of_mem _ (List.mem_append_left _ ?_)
    exact hspec.2.2.2.2.2.2.1 rid hr
  · intro e he
    rcases List.mem_cons.mp he with h1 | h1
    · left
      rw [h1]
      rfl
    · rcases List.mem_append.mp h1 with h2 | h2
      · rcases hspec.2.2.2.2.2.2.2 e h2 with h3 | h3
        · right; left; exact h3
        · right; right; exact h3
      · left
        rw [List.mem_singleton.mp h2]
        rfl

theorem proxyOnLoss_frame (instanceID : String) (s : ConnState) :
    (ConnState.proxyOnLoss instanceID s).1.connected = s.connected ∧
    (ConnState.proxyOnLoss instanceID s).1.poller = s.poller ∧
    (ConnState.proxyOnLoss instanceID s).1.requests.settled = s.requests.settled ∧
    (∃ ext, (ConnState.proxyOnLoss instanceID s).1.requests.tableIDs
        = s.requests.tableIDs ++ ext) ∧
    (∃ qext, postedOf (ConnState.proxyOnLoss instanceID s).2
          ++ (ConnState.proxyOnLoss instanceID s).1.requests.requestQueue
        = s.requests.requestQueue ++ qext) ∧
    (ConnState.proxyOnLoss instanceID s).1.instances.map Prod.fst
      = s.instances.map Prod.fst ∧
    (∀ e ∈ (ConnState.proxyOnLoss instanceID s).2,
      e.isRoFire = true ∨ e.isInvSettle = true ∨ e.isPost = true) := by
  cases hinst : getInstance s.instances instanceID with
  | none =>
    refine ⟨?_, ?_, ?_, ⟨[], ?_⟩, ⟨[], ?_⟩, ?_, ?_⟩ <;>
      simp [ConnState.proxyOnLoss, hinst, postedOf]
  | some inst =>
    have hspec := proxyOnLoss_spec instanceID inst s hinst
    refine ⟨hspec.1, hspec.2.1, hspec.2.2.1, ?_, ?_, hspec.2.2.2.2.2.1,
      hspec.2.2.2.2.2.2.2.2.2.2⟩
    · rcases hspec.2.2.2.1 with ⟨n, hn⟩
      exact ⟨[n], hn⟩
    · rcases hspec.2.2.2.2.1 with ⟨n, hn⟩
      exact ⟨[(n, { action := Action.destroy, instanceID := some instanceID })], hn⟩

theorem stop_facts (p : PollerState) :
    (Poller.stop p).1.stopped = true ∧
    (Poller.stop p).1.latestID = p.latestID ∧
    ((Poller.stop p).1.timeoutArmed = false ∨
      (Poller.stop p).1.timeoutArmed = p.timeoutArmed) ∧
    (∀ e ∈ (Poller.stop p).2, e = Event.timerClear ∨ ∃ pid, e = Event.pollAbort pid) := by
  cases hp : p.pendingRequest with
  | some pid =>
    refine ⟨by simp [Poller.stop, hp], by simp [Poller.stop, hp],
      Or.inl (by simp [Poller.stop, hp]), ?_⟩
    intro e he
    simp only [Poller.stop, hp] at he
    rcases List.mem_cons.mp he with h1 | h1
    · left; exact h1
    · right
      exact ⟨pid, List.mem_singleton.mp h1⟩
  | none =>
    refine ⟨by simp [Poller.stop, hp], by simp [Poller.stop, hp],
      Or.inr (by simp [Poller.stop, hp]), ?_⟩
    intro e he
    simp [Poller.stop, hp] at he

theorem lossAll_frame (instanceIDs : List String) (s : ConnState) :
    (ConnState.lossAll instanceIDs s).1.connected = s.connected ∧
    (ConnState.lossAll instanceIDs s).1.poller = s.poller ∧
    (ConnState.lossAll instanceIDs s).1.requests.settled = s.requests.settled ∧
    (∃ ext, (ConnState.lossAll instanceIDs s).1.requests.tableIDs
        = s.requests.tableIDs ++ ext) ∧
    (∃ qext, postedOf (ConnState.lossAll instanceIDs s).2
          ++ (ConnState.lossAll instanceIDs s).1.requests.requestQueue
        = s.requests.requestQueue ++ qext) ∧
    (ConnState.lossAll instanceIDs s).1.instances.map Prod.fst
      = s.instances.map Prod.fst ∧
    (∀ e ∈ (ConnState.lossAll instanceIDs s).2,
      e.isRoFire = true ∨ e.isInvSettle = true ∨ e.isPost = true) := by
  induction instanceIDs generalizing s with
  | nil =>
    exact ⟨rfl, rfl, rfl, ⟨[], by simp [ConnState.lossAll]⟩,
      ⟨[], by simp [ConnState.lossAll, postedOf]⟩, rfl, by simp [ConnState.lossAll]⟩
  | cons head rest ih =>
    simp only [ConnState.lossAll]
    have hfirst := proxyOnLoss_frame head s
    have hrest := ih (ConnState.proxyOnLoss head s).1
    refine ⟨hrest.1.trans hfirst.1, hrest.2.1.trans hfirst.2.1,
      hrest.2.2.1.trans hfirst.2.2.1, ?_, ?_, hrest.2.2.2.2.2.1.trans hfirst.2.2.2.2.2.1, ?_⟩
    · rcases hfirst.2.2.2.1 with ⟨e1, he1⟩
      rcases hrest.2.2.2.1 with ⟨e2, he2⟩
      refine ⟨e1 ++ e2, ?_⟩
      rw [he2, he1, List.append_assoc]
    · rcases hfirst.2.2.2.2.1 with ⟨q1, hq1⟩
      rcases hrest.2.2.2.2.1 with ⟨q2, hq2⟩
      refine ⟨q1 ++ q2, ?_⟩
      rw [postedOf_append, List.append_assoc, hq2, ← List.append_assoc, hq1,
        List.append_assoc]
    · intro e he
      rcases List.mem_append.mp he with h1 | h1
      · exact hfirst.2.2.2.2.2.2 e h1
      · exact hrest.2.2.2.2.2.2 e h1

theorem lossAll_payload (instanceIDs : List String) (s : ConnState)
    (hnodup : instanceIDs.Nodup)
    (hpresent : ∀ iid ∈ instanceIDs, iid ∈ s.instances.map Prod.fst) :
    (∀ iid ∈ instanceIDs,
      Event.roFire iid "loss" ∈ (ConnState.lossAll instanceIDs s).2 ∧
      Event.roFire iid "destroy" ∈ (ConnState.lossAll instanceIDs s).2 ∧
      ∃ n, (n, ({ action := Action.destroy, instanceID := some iid } : OutRequest))
          ∈ postedOf (ConnState.lossAll instanceIDs s).2
              ++ (ConnState.lossAll instanceIDs s).1.requests.requestQueue) ∧
    (∀ iid inst, iid ∈ instanceIDs → getInstance s.instances iid = some inst →
      ∀ rid ∈ inst.deferredResults,
        Event.invSettle iid rid
          (InvOutcome.rejected (JsValue.vstr "remote object destroyed"))
          ∈ (ConnState.lossAll instanceIDs s).2) := by
  induction instanceIDs generalizing s with
  | nil => exact ⟨by simp, by simp [ConnState.lossAll]⟩
  | cons head rest ih =>
    simp only [ConnState.lossAll]
    have hnd := List.nodup_cons.mp hnodup
    obtain ⟨inst0, hinst0⟩ :=
      getInstance_isSome_of_mem _ _ (hpresent head (List.mem_cons_self _ _))
    have hfirst := proxyOnLoss_spec head inst0 s hinst0
    have hframe_rest := lossAll_frame rest (ConnState.proxyOnLoss head s).1
    have hpresent' : ∀ iid ∈ rest,
        iid ∈ (ConnState.proxyOnLoss head s).1.instances.map Prod.fst := by
      intro iid hm
      rw [hfirst.2.2.2.2.2.1]
      exact hpresent iid (List.mem_cons_of_mem _ hm)
    have hrest := ih (ConnState.proxyOnLoss head s).1 hnd.2 hpresent'
    constructor
    · intro iid hm
      rcases List.mem_cons.mp hm with hm1 | hm1
      · subst hm1
        refine ⟨List.mem_append_left _ hfirst.2.2.2.2.2.2.2.1,
          List.mem_append_left _ hfirst.2.2.2.2.2.2.2.2.1, ?_⟩
        rcases hfirst.2.2.2.2.1 with ⟨n, hn⟩
        rcases hframe_rest.2.2.2.2.1 with ⟨qext, hq⟩
        refine ⟨n, ?_⟩
        apply mem_posted_persist _ _ _ _ _ _ hq
        rw [hn]
        exact List.mem_append_right _ (List.mem_singleton.mpr rfl)
      · have h3 := hrest.1 iid hm1
        refine ⟨List.mem_append_right _ h3.1, List.mem_append_right _ h3.2.1, ?_⟩
        rcases h3.2.2 with ⟨n, hn⟩
        refine ⟨n, ?_⟩
        rw [postedOf_append, List.append_assoc]
        exact List.mem_append_right _ hn
    · intro iid inst hm hginst rid hrid
      rcases List.mem_cons.mp hm with hm1 | hm1
      · subst hm1
        rw [hginst] at hinst0
        have hinsteq : inst = inst0 := Option.some.inj hinst0
        refine List.mem_append_left _ (hfirst.2.2.2.2.2.2.2.2.2.1 rid ?_)
        rw [← hinsteq]
        exact hrid
      · have hne : iid ≠ head := fun he => hnd.1 (he ▸ hm1)
        have hg1 : getInstance (ConnState.proxyOnLoss head s).1.instances iid
            = some inst := by
          rw [hfirst.2.2.2.2.2.2.1 iid hne, hginst]
        exact List.mem_append_right _ (hrest.2 iid inst hm1 hg1 rid hrid)

theorem postedOf_eq_nil (evs : List Event) (h : ∀ e ∈ evs, e.isPost = false) :
    postedOf evs = [] := by
  induction evs with
  | nil => rfl
  | cons e rest ih =>
    have he := h e (List.mem_cons_self e rest)
    have hrest := ih (fun x hx => h x (List.mem_cons_of_mem e hx))
    cases e <;> simp [Event.isPost] at he ⊢ <;>
      simpa [postedOf, List.filterMap_cons] using hrest

theorem postedOf_cons (e : Event) (l : List Event) (he : e.isPost = false) :
    postedOf (e :: l) = postedOf l := by
  cases e <;> simp [Event.isPost] at he ⊢ <;> simp [postedOf, List.filterMap_cons]

theorem disconnect_ok (s : ConnState) (hconn : s.connected = true) :
    ∀ s' evs, ConnState.disconnect s = Except.ok (s', evs) →
      s'.connected = false ∧
      s'.instances = [] ∧
      s'.poller.stopped = true ∧
      s'.requests.settled = s.requests.settled ∧
      (∃ ext, s'.requests.tableIDs = s.requests.tableIDs ++ ext) ∧
      evs.filter Event.isConnFire = [Event.connFire "disconnect" []] ∧
      evs.filter Event.isPollGet = [] ∧
      evs.filter Event.isLossSignal = [] ∧
      (s'.poller.timeoutArmed = false ∨ s'.poller.timeoutArmed = s.poller.timeoutArmed) ∧
      Poller.poll s'.poller = (s'.poller, []) ∧
      ConnState.disconnect s' = Except.error "already disconnected" ∧
      ((s.instances.map Prod.fst).Nodup →
        ∀ iid inst, (iid, inst) ∈ s.instances →
          Event.roFire iid "loss" ∈ evs ∧ Event.roFire iid "destroy" ∈ evs ∧
          (∀ rid ∈ inst.deferredResults,
            Event.invSettle iid rid
              (InvOutcome.rejected (JsValue.vstr "remote object destroyed")) ∈ evs) ∧
          ∃ n, (n, ({ action := Action.destroy, instanceID := some iid } : OutRequest))
              ∈ postedOf evs ++ s'.requests.requestQueue) := by
  intro s' evs h
  simp only [ConnState.disconnect, hconn, if_true] at h
  injection h with hpair
  injection hpair with hs hevs
  subst hs
  subst hevs
  dsimp only
  cases hpend : (ConnState.lossAll (List.map Prod.fst s.instances)
      { connected := false, requests := s.requests, pendingRequest := s.pendingRequest,
        instances := s.instances, poller := s.poller }).1.pendingRequest with
  | some b =>
    dsimp only
    have hframe := lossAll_frame (List.map Prod.fst s.instances)
      { connected := false, requests := s.requests, pendingRequest := s.pendingRequest,
        instances := s.instances, poller := s.poller }
    have hstop := stop_facts (ConnState.lossAll (List.map Prod.fst s.instances)
        { connected := false, requests := s.requests, pendingRequest := s.pendingRequest,
          instances := s.instances, poller := s.poller }).1.poller
    have hlossKinds := hframe.2.2.2.2.2.2
    have hstopKinds := hstop.2.2.2
    have hfiltL : ∀ p : Event → Bool,
        (∀ e : Event,
          (Event.isRoFire e = true ∨ Event.isInvSettle e = true ∨ Event.isPost e = true) →
          p e = false) →
        List.filter p (ConnState.lossAll (List.map Prod.fst s.instances)
            { connected := false, requests := s.requests, pendingRequest := s.pendingRequest,
              instances := s.instances, poller := s.poller }).2 = [] := by
      intro p hp
      refine List.filter_eq_nil_iff.mpr ?_
      intro e he
      simp [hp e (hlossKinds e he)]
    have hfiltS : ∀ p : Event → Bool,
        p Event.timerClear = false → (∀ pid, p (Event.pollAbort pid) = false) →
        List.filter p (Poller.stop (ConnState.lossAll (List.map Prod.fst s.instances)
            { connected := false, requests := s.requests, pendingRequest := s.pendingRequest,
              instances := s.instances, poller := s.poller }).1.poller).2 = [] := by
      intro p h1 h2
      refine List.filter_eq_nil_iff.mpr ?_
      intro e he
      rcases hstopKinds e he with hh | ⟨pid, hh⟩ <;> subst hh <;> simp [h1, h2]
    have hpostS : postedOf (Poller.stop (ConnState.lossAll (List.map Prod.fst s.instances)
        { connected := false, requests := s.requests, pendingRequest := s.pendingRequest,
          instances := s.instances, poller := s.poller }).1.poller).2 = [] := by
      refine postedOf_eq_nil _ ?_
      intro e he
      rcases hstopKinds e he with hh | ⟨pid, hh⟩ <;> subst hh <;> rfl
    refine ⟨hframe.1, rfl, hstop.1, hframe.2.2.1, hframe.2.2.2.1, ?_, ?_, ?_, ?_, ?_, ?_, ?_⟩
    · simp [List.filter_cons, List.filter_append,
        hfiltL Event.isConnFire not_connFire_of_kind,
        hfiltS Event.isConnFire rfl (fun pid => rfl), Event.isConnFire]
    · simp [List.filter_cons, List.filter_append,
        hfiltL Event.isPollGet not_pollGet_of_kind,
        hfiltS Event.isPollGet rfl (fun pid => rfl), Event.isPollGet]
    · simp [List.filter_cons, List.filter_append,
        hfiltL Event.isLossSignal not_lossSignal_of_kind,
        hfiltS Event.isLossSignal rfl (fun pid => rfl), Event.isLossSignal]
    · rcases hstop.2.2.1 with hta | hta
      · exact Or.inl hta
      · refine Or.inr ?_
        rw [hta, hframe.2.1]
    · simp [Poller.poll, hstop.1]
    · have hc : (ConnState.lossAll (List.map Prod.fst s.instances)
          { connected := false, requests := s.requests, pendingRequest := s.pendingRequest,
            instances := s.instances, poller := s.poller }).1.connected = false := hframe.1
      simp [ConnState.disconnect, hc]
    · intro hnodup iid inst hmem
      have hIDm : iid ∈ List.map Prod.fst s.instances := by
        have hm := List.mem_map_of_mem Prod.fst hmem
        simpa using hm
      have hpay := lossAll_payload (List.map Prod.fst s.instances)
        { connected := false, requests := s.requests, pendingRequest := s.pendingRequest,
          instances := s.instances, poller := s.poller } hnodup (fun i hi => hi)
      have hgi : getInstance s.instances iid = some inst :=
        getInstance_of_mem_nodup _ _ _ hnodup hmem
      obtain ⟨hL, hD, hQ⟩ := hpay.1 iid hIDm
      refine ⟨?_, ?_, ?_, ?_⟩
      · exact List.mem_cons_of_mem _
          (List.mem_append_left _ (List.mem_append_left _ (List.mem_append_left _ hL)))
      · exact List.mem_cons_of_mem _
          (List.mem_append_left _ (List.mem_append_left _ (List.mem_append_left _ hD)))
      · intro rid hrid
        exact List.mem_cons_of_mem _
          (List.mem_append_left _ (List.mem_append_left _
            (List.mem_append_left _ (hpay.2 iid inst hIDm hgi rid hrid))))
      · rcases hQ with ⟨n, hn⟩
        refine ⟨n, ?_⟩
        rcases List.mem_append.mp hn with hx | hx
        · refine List.mem_append_left _ ?_
          rw [postedOf_cons (Event.connFire "disconnect" []) _ rfl, postedOf_append,
            postedOf_append, postedOf_append]
          exact List.mem_append_left _
            (List.mem_append_left _ (List.mem_append_left _ hx))
        · exact List.mem_append_right _ hx
  | none =>
    dsimp only
    have hframe := lossAll_frame (List.map Prod.fst s.instances)
      { connected := false, requests := s.requests, pendingRequest := s.pendingRequest,
        instances := s.instances, poller := s.poller }
    have hstop := stop_facts (ConnState.lossAll (List.map Prod.fst s.instances)
        { connected := false, requests := s.requests, pendingRequest := s.pendingRequest,
          instances := s.instances, poller := s.poller }).1.poller
    have hlossKinds := hframe.2.2.2.2.2.2
    have hstopKinds := hstop.2.2.2
    have hfiltL : ∀ p : Event → Bool,
        (∀ e : Event,
          (Event.isRoFire e = true ∨ Event.isInvSettle e = true ∨ Event.isPost e = true) →
          p e = false) →
        List.filter p (ConnState.lossAll (List.map Prod.fst s.instances)
            { connected := false, requests := s.requests, pendingRequest := s.pendingRequest,
              instances := s.instances, poller := s.poller }).2 = [] := by
      intro p hp
      refine List.filter_eq_nil_iff.mpr ?_
      intro e he
      simp [hp e (hlossKinds e he)]
    have hfiltS : ∀ p : Event → Bool,
        p Event.timerClear = false → (∀ pid, p (Event.pollAbort pid) = false) →
        List.filter p (Poller.stop (ConnState.lossAll (List.map Prod.fst s.instances)
            { connected := false, requests := s.requests, pendingRequest := s.pendingRequest,
              instances := s.instances, poller := s.poller }).1.poller).2 = [] := by
      intro p h1 h2
      refine List.filter_eq_nil_iff.mpr ?_
      intro e he
      rcases hstopKinds e he with hh | ⟨pid, hh⟩ <;> subst hh <;> simp [h1, h2]
    have hpostS : postedOf (Poller.stop (ConnState.lossAll (List.map Prod.fst s.instances)
        { connected := false, requests := s.requests, pendingRequest := s.pendingRequest,
          instances := s.instances, poller := s.poller }).1.poller).2 = [] := by
      refine postedOf_eq_nil _ ?_
      intro e he
      rcases hstopKinds e he with hh | ⟨pid, hh⟩ <;> subst hh <;> rfl
    refine ⟨hframe.1, rfl, hstop.1, hframe.2.2.1, hframe.2.2.2.1, ?_, ?_, ?_, ?_, ?_, ?_, ?_⟩
    · simp [List.filter_cons, List.filter_append,
        hfiltL Event.isConnFire not_connFire_of_kind,
        hfiltS Event.isConnFire rfl (fun pid => rfl), Event.isConnFire]
    · simp [List.filter_cons, List.filter_append,
        hfiltL Event.isPollGet not_pollGet_of_kind,
        hfiltS Event.isPollGet rfl (fun pid => rfl), Event.isPollGet]
    · simp [List.filter_cons, List.filter_append,
        hfiltL Event.isLossSignal not_lossSignal_of_kind,
        hfiltS Event.isLossSignal rfl (fun pid => rfl), Event.isLossSignal]
    · rcases hstop.2.2.1 with hta | hta
      · exact Or.inl hta
      · refine Or.inr ?_
        rw [hta, hframe.2.1]
    · simp [Poller.poll, hstop.1]
    · have hc : (ConnState.lossAll (List.map Prod.fst s.instances)
          { connected := false, requests := s.requests, pendingRequest := s.pendingRequest,
            instances := s.instances, poller := s.poller }).1.connected = false := hframe.1
      simp [ConnState.disconnect, hc]
    · intro hnodup iid inst hmem
      have hIDm : iid ∈ List.map Prod.fst s.instances := by
        have hm := List.mem_map_of_mem Prod.fst hmem
        simpa using hm
      have hpay := lossAll_payload (List.map Prod.fst s.instances)
        { connected := false, requests := s.requests, pendingRequest := s.pendingRequest,
          instances := s.instances, poller := s.poller } hnodup (fun i hi => hi)
      have hgi : getInstance s.instances iid = some inst :=
        getInstance_of_mem_nodup _ _ _ hnodup hmem
      obtain ⟨hL, hD, hQ⟩ := hpay.1 iid hIDm
      refine ⟨?_, ?_, ?_, ?_⟩
      · exact List.mem_cons_of_mem _
          (List.mem_append_left _ (List.mem_append_left _ (List.mem_append_left _ hL)))
      · exact List.mem_cons_of_mem _
          (List.mem_append_left _ (List.mem_append_left _ (List.mem_append_left _ hD)))
      · intro rid hrid
        exact List.mem_cons_of_mem _
          (List.mem_append_left _ (List.mem_append_left _
            (List.mem_append_left _ (hpay.2 iid inst hIDm hgi rid hrid))))
      · rcases hQ with ⟨n, hn⟩
        refine ⟨n, ?_⟩
        rcases List.mem_append.mp hn with hx | hx
        · refine List.mem_append_left _ ?_
          rw [postedOf_cons (Event.connFire "disconnect" []) _ rfl, postedOf_append,
            postedOf_append, postedOf_append]
          exact List.mem_append_left _
            (List.mem_append_left _ (List.mem_append_left _ hx))
        · exact List.mem_append_right _ hx

theorem foldl_max_init_le (msgs : List PollMsg) (L : Int) :
    L ≤ msgs.foldl (fun a m => max a m.id) L := by
  induction msgs generalizing L with
  | nil => simp
  | cons x t ih =>
    simp only [List.foldl_cons]
    exact le_trans (le_max_left L x.id) (ih (max L x.id))

theorem mem_id_le_foldl_max (msgs : List PollMsg) (m : PollMsg) (hm : m ∈ msgs) (L : Int) :
    m.id ≤ msgs.foldl (fun a m => max a m.id) L := by
  induction msgs generalizing L with
  | nil => cases hm
  | cons x t ih =>
    simp only [List.foldl_cons]
    rcases List.mem_cons.mp hm with h | h
    · subst h
      exact le_trans (le_max_right L m.id) (foldl_max_init_le t (max L m.id))
    · exact ih h (max L x.id)

theorem foldl_max_of_sorted (t : List PollMsg)
    (hsort : t.Pairwise (fun a b => a.id < b.id)) :
    ∀ c : Int, (∀ y ∈ t, c < y.id) →
      t.foldl (fun a m => max a m.id) c = (t.getLast?).elim c PollMsg.id := by
  induction hsort with
  | nil =>
    intro c _
    simp
  | cons hhead htail ih =>
    rename_i y t'
    intro c h
    simp only [List.foldl_cons]
    rw [max_eq_right (h y (List.mem_cons_self y t')).le, ih y.id hhead]
    cases t' with
    | nil => simp
    | cons z t'' =>
      rw [List.getLast?_cons_cons]
      rw [List.getLast?_eq_getLast (z :: t'') (by simp)]
      simp

theorem filtered_getLast_eq_foldl_max (msgs : List PollMsg)
    (hsort : msgs.Pairwise (fun a b => a.id < b.id)) :
    ∀ L : Int,
      ((msgs.filter (fun m => m.id > L)).getLast?).elim L PollMsg.id
        = msgs.foldl (fun a m => max a m.id) L := by
  induction hsort with
  | nil =>
    intro L
    simp
  | cons hhead htail ih =>
    rename_i x t
    intro L
    by_cases hx : x.id > L
    · have hfilter : t.filter (fun m => m.id > L) = t :=
        List.filter_eq_self.mpr (fun y hy => by
          simp only [decide_eq_true_eq]
          exact lt_trans hx (hhead y hy))
      rw [List.filter_cons_of_pos (by simpa using hx), hfilter]
      simp only [List.foldl_cons]
      rw [max_eq_right hx.le, foldl_max_of_sorted t htail x.id hhead]
      cases t with
      | nil => simp
      | cons z t'' =>
        rw [List.getLast?_cons_cons]
        rw [List.getLast?_eq_getLast (z :: t'') (by simp)]
        simp
    · rw [List.filter_cons_of_neg (by simpa using hx)]
      simp only [List.foldl_cons]
      rw [max_eq_left (le_of_not_lt hx)]
      exact ih L

/-- C2 (amended): for a current-generation poll response on a running poller,
provided the response lists its messages in ascending id order, messages
with id at most the current last-seen id are filtered out before delivery,
the last-seen id is advanced to the maximum id observed, every id of the
response becomes at most the new last-seen id (so re-delivering any of these
messages later is filtered out, giving exactly one application-visible
delivery), and the last-seen id never decreases under any poller
transition. -/
theorem C2_poll_dedup_and_latest_advance (thisPollID : Nat) (messages : List PollMsg)
    (s : PollerState)
    (hpid : thisPollID = s.curPollID)
    (hstop : s.stopped = false)
    (hsort : messages.Pairwise (fun a b => a.id < b.id)) :
    ∀ s' evs, Poller.onResponse thisPollID messages s = (s', evs) →
      s'.latestID = messages.foldl (fun a m => max a m.id) s.latestID ∧
      s.latestID ≤ s'.latestID ∧
      deliveredOf evs
        = (if messages.filter (fun m => m.id > s.latestID) = [] then []
           else [(messages.filter (fun m => m.id > s.latestID)).map PollMsg.message]) ∧
      messages.filter (fun m => m.id > s'.latestID) = [] ∧
      (∀ t : PollerState, (Poller.poll t).1.latestID = t.latestID) ∧
      (∀ t : PollerState, ∀ pid : Nat, ∀ e : JsValue,
          (Poller.onError pid e t).1.latestID = t.latestID) ∧
      (∀ t : PollerState, ∀ r, Poller.onTimeout t = some r → r.1.latestID = t.latestID) ∧
      (∀ t : PollerState, (Poller.stop t).1.latestID = t.latestID) := by
  intro s' evs h
  have hpoll_latest : ∀ t : PollerState, (Poller.poll t).1.latestID = t.latestID := by
    intro t
    by_cases ht : t.stopped <;> simp [Poller.poll, ht]
  have hmax := filtered_getLast_eq_foldl_max messages hsort s.latestID
  have hmain : s'.latestID = messages.foldl (fun a m => max a m.id) s.latestID ∧
      deliveredOf evs
        = (if messages.filter (fun m => m.id > s.latestID) = [] then []
           else [(messages.filter (fun m => m.id > s.latestID)).map PollMsg.message]) := by
    rw [Poller.onResponse, if_neg (by simp [hpid])] at h
    simp only [hstop, Bool.false_eq_true, if_false] at h
    cases hlast : (messages.filter (fun m => m.id > s.latestID)).getLast? with
    | none =>
      rw [hlast] at h
      have hempty : messages.filter (fun m => m.id > s.latestID) = [] :=
        List.getLast?_eq_none_iff.mp hlast
      rw [hlast] at hmax
      simp only [Option.elim_none] at hmax
      cases h
      constructor
      · rw [hpoll_latest, ← hmax]
      · simp [hempty, deliveredOf, Poller.poll, hstop]
    | some lastMsg =>
      rw [hlast] at h
      have hne : messages.filter (fun m => m.id > s.latestID) ≠ [] := by
        intro hcontra
        rw [hcontra] at hlast
        simp at hlast
      rw [hlast] at hmax
      simp only [Option.elim_some] at hmax
      cases h
      constructor
      · rw [hpoll_latest, ← hmax]
      · simp [hne, deliveredOf, Poller.poll, hstop]
  refine ⟨hmain.1, ?_, hmain.2, ?_, hpoll_latest, ?_, ?_, ?_⟩
  · rw [hmain.1]
    exact foldl_max_init_le messages s.latestID
  · rw [hmain.1]
    refine List.filter_eq_nil_iff.mpr (fun m hm => by
      simp only [decide_eq_true_eq, not_lt]
      exact mem_id_le_foldl_max messages m hm s.latestID)
  · intro t pid e
    by_cases hpt : pid ≠ t.curPollID
    · simp [Poller.onError, hpt]
    · by_cases ht : t.stopped <;> simp [Poller.onError, hpt, ht]
  · intro t r hr
    cases hpend : t.pendingRequest with
    | none => rw [Poller.onTimeout, hpend] at hr; cases hr
    | some pid =>
      rw [Poller.onTimeout, hpend] at hr
      cases hr
      simp [hpoll_latest]
  · intro t
    cases hpend : t.pendingRequest <;> simp [Poller.stop, hpend]

/-- Counterexample to C2 as stated: on a response whose messages are not in
ascending id order ([id 5, id 3] with nothing seen yet), the poller advances
the last-seen id to 3 — the id of the last message — not to the maximum id
observed (5), so the claimed advancement to the maximum fails. -/
theorem C2_counterexample :
    (Poller.onResponse 1 unsortedResponse activePoller).1.latestID = 3 ∧
    (5 : Int) ∈ unsortedResponse.map PollMsg.id ∧
    ¬((5 : Int) ≤ (Poller.onResponse 1 unsortedResponse activePoller).1.latestID) := by
  decide

/-- Witness for C2 at a concrete ascending response on a fresh poller. -/
theorem C2_witness :
    ((1 = activePoller.curPollID ∧ activePoller.stopped = false) ∧
      ascendingResponse.Pairwise (fun a b => a.id < b.id)) ∧
    (Poller.onResponse 1 ascendingResponse activePoller).1.latestID
      = ascendingResponse.foldl (fun a m => max a m.id) activePoller.latestID := by
  refine ⟨⟨⟨rfl, rfl⟩, by decide⟩, ?_⟩
  exact (C2_poll_dedup_and_latest_advance 1 ascendingResponse activePoller rfl rfl (by decide)
    (Poller.onResponse 1 ascendingResponse activePoller).1
    (Poller.onResponse 1 ascendingResponse activePoller).2 rfl).1

/-- C4: on watchdog expiry with a current-generation GET outstanding, the
poller aborts that GET and immediately issues a new poll carrying the same
last-seen id under the next generation; the expiry emits no loss signal, and
any late response or rejection of the aborted GET is discarded because its
generation no longer matches the incremented generation counter. -/
theorem C4_timeout_abort_and_reissue (s : PollerState) (pollID : Nat)
    (hpend : s.pendingRequest = some pollID)
    (hcur : pollID = s.curPollID)
    (hstop : s.stopped = false) :
    (Poller.onTimeout s).isSome = true ∧
    ∀ s' evs, Poller.onTimeout s = some (s', evs) →
      evs = [Event.pollAbort pollID,
             Event.pollGet (if s.latestID ≥ 0 then some s.latestID else none) (s.curPollID + 1),
             Event.timerSet] ∧
      s'.latestID = s.latestID ∧
      s'.curPollID = s.curPollID + 1 ∧
      s'.pendingRequest = some (s.curPollID + 1) ∧
      evs.filter Event.isLossSignal = [] ∧
      (∀ msgs, Poller.onResponse pollID msgs s' = (s', [])) ∧
      (∀ e, Poller.onError pollID e s' = (s', [])) := by
  constructor
  · rw [Poller.onTimeout, hpend]
    rfl
  · intro s' evs h
    rw [Poller.onTimeout, hpend] at h
    simp only [Poller.poll, hstop, Bool.false_eq_true, if_false, Option.some_inj] at h
    cases h
    have hne : pollID ≠ s.curPollID + 1 := by
      rw [hcur]
      exact Nat.ne_of_lt (Nat.lt_succ_self _)
    refine ⟨rfl, rfl, rfl, rfl, by simp [Event.isLossSignal], ?_, ?_⟩
    · intro msgs
      rw [Poller.onResponse, if_pos (by simpa using hne)]
    · intro e
      rw [Poller.onError, if_pos (by simpa using hne)]

/-- Witness for C4 at a fresh poller with GET generation 1 outstanding. -/
theorem C4_witness :
    (activePoller.pendingRequest = some 1 ∧ 1 = activePoller.curPollID ∧
      activePoller.stopped = false) ∧
    (Poller.onTimeout activePoller).isSome = true := by
  exact ⟨⟨rfl, rfl, rfl⟩, (C4_timeout_abort_and_reissue activePoller 1 rfl rfl rfl).1⟩

theorem memberLookup_jsAssign_self (obj : List (String × Member)) (key : String) (val : Member) :
    memberLookup (jsAssign obj key val) key = some val := by
  induction obj with
  | nil => simp [jsAssign, memberLookup]
  | cons p rest ih =>
    by_cases h : p.1 = key
    · simp [jsAssign, memberLookup, h]
    · simp only [jsAssign, beq_iff_eq, h, if_false]
      simpa [memberLookup, List.find?_cons, beq_iff_eq, h] using ih

theorem memberLookup_jsAssign_of_ne (obj : List (String × Member)) (key key' : String)
    (val : Member) (h : key' ≠ key) :
    memberLookup (jsAssign obj key val) key' = memberLookup obj key' := by
  induction obj with
  | nil => simp [jsAssign, memberLookup, List.find?_cons, beq_iff_eq, h, Ne.symm h]
  | cons p rest ih =>
    by_cases hp : p.1 = key
    · have hb : (p.1 == key) = true := by simp [beq_iff_eq, hp]
      simp [jsAssign, hb, memberLookup, List.find?_cons, beq_iff_eq, hp, Ne.symm h]
    · have hb : (p.1 == key) = false := by simp [beq_iff_eq, hp]
      simp only [jsAssign, hb, Bool.false_eq_true, if_false]
      by_cases hp' : p.1 = key'
      · simp [memberLookup, List.find?_cons, beq_iff_eq, hp']
      · have hb' : (p.1 == key') = false := by simp [beq_iff_eq, hp']
        simpa [memberLookup, List.find?_cons, hb'] using ih

/-- C10: when the server-supplied method-name list contains on, off or
destroy, the RemoteObject constructor's built-in member of that name
overwrites the generated forwarding method (built-ins are assigned after the
method loop), so the proxy's member of that name is never the remote
forwarding method. -/
theorem C10_builtins_shadow_remote_methods (methods : List String) (key : String)
    (hmem : key ∈ methods)
    (hkey : key = "on" ∨ key = "off" ∨ key = "destroy") :
    memberLookup (RemoteObject.members methods) key
      = some (if key = "destroy" then Member.builtinDestroy
              else if key = "off" then Member.builtinOff
              else Member.builtinOn) ∧
    ∀ m, memberLookup (RemoteObject.members methods) key ≠ some (Member.remoteMethod m) := by
  have hbuiltin : memberLookup (RemoteObject.members methods) key
      = some (if key = "destroy" then Member.builtinDestroy
              else if key = "off" then Member.builtinOff
              else Member.builtinOn) := by
    unfold RemoteObject.members
    rcases hkey with h | h | h <;> subst h
    · rw [memberLookup_jsAssign_of_ne _ _ _ _ (by decide),
        memberLookup_jsAssign_of_ne _ _ _ _ (by decide),
        memberLookup_jsAssign_self]
      simp
    · rw [memberLookup_jsAssign_of_ne _ _ _ _ (by decide),
        memberLookup_jsAssign_self]
      simp
    · rw [memberLookup_jsAssign_self]
      simp
  refine ⟨hbuiltin, ?_⟩
  intro m
  rw [hbuiltin]
  rcases hkey with h | h | h <;> subst h <;> simp

/-- Witness for C10 at the concrete method list [destroy, ping]. -/
theorem C10_witness :
    ("destroy" ∈ ["destroy", "ping"] ∧
      ("destroy" = "on" ∨ "destroy" = "off" ∨ ("destroy" : String) = "destroy")) ∧
    memberLookup (RemoteObject.members ["destroy", "ping"]) "destroy"
      = some Member.builtinDestroy := by
  have hm : "destroy" ∈ ["destroy", "ping"] := by decide
  have hk : "destroy" = "on" ∨ "destroy" = "off" ∨ ("destroy" : String) = "destroy" := by decide
  have h := (C10_builtins_shadow_remote_methods ["destroy", "ping"] "destroy" hm hk).1
  exact ⟨⟨hm, hk⟩, by simpa using h⟩

/-- Counterexample to C1 as stated: disconnecting a connection with one live
proxy i1 makes the loss-path teardown enqueue — and here actually POST — a
server-side destroy request for i1, so the claim that this path does not
enqueue or send a destroy request for any proxy is false on the code. -/
theorem C1_counterexample :
    (ConnState.disconnect oneProxyState).toOption.map
        (fun p => postedOf p.2 ++ p.1.requests.requestQueue)
      = some [(0, { action := Action.destroy, instanceID := some "i1" })] := by
  decide

/-- C1 (amended): when the connection is torn down by disconnect(), every
live proxy is forced into the lost state via its owner-only onLoss hook —
it fires loss then destroy, its pending invocation futures are rejected with
the destroyed error, and the proxy table is emptied — but this path DOES
enqueue a server-side destroy request for every proxy, because the onLoss
hook invokes the same onDestroy callback that the application-facing
destroy() uses (the batch it may start is then aborted by the teardown). -/
theorem C1_loss_teardown_enqueues_destroy (s s' : ConnState) (evs : List Event)
    (hconn : s.connected = true)
    (hnodup : (s.instances.map Prod.fst).Nodup)
    (h : ConnState.disconnect s = Except.ok (s', evs)) :
    s'.instances = [] ∧
    ∀ iid inst, (iid, inst) ∈ s.instances →
      Event.roFire iid "loss" ∈ evs ∧
      Event.roFire iid "destroy" ∈ evs ∧
      (∀ rid ∈ inst.deferredResults,
        Event.invSettle iid rid
          (InvOutcome.rejected (JsValue.vstr "remote object destroyed")) ∈ evs) ∧
      ∃ n, (n, ({ action := Action.destroy, instanceID := some iid } : OutRequest))
          ∈ postedOf evs ++ s'.requests.requestQueue := by
  have hd := disconnect_ok s hconn s' evs h
  exact ⟨hd.2.1, hd.2.2.2.2.2.2.2.2.2.2.2 hnodup⟩

/-- Witness for C1 at a connection with one live proxy. -/
theorem C1_witness :
    (oneProxyState.connected = true ∧ (oneProxyState.instances.map Prod.fst).Nodup) ∧
    Event.roFire "i1" "loss" ∈ (okParts (ConnState.disconnect oneProxyState)).2 := by
  refine ⟨⟨rfl, by decide⟩, ?_⟩
  exact ((C1_loss_teardown_enqueues_destroy oneProxyState
      (okParts (ConnState.disconnect oneProxyState)).1
      (okParts (ConnState.disconnect oneProxyState)).2
      rfl (by decide) rfl).2 "i1" ⟨false, false, 1, [0]⟩ (by decide)).1

/-- C5: after a successful disconnect(), the connection is marked
disconnected, every proxy that was live at that moment has been destroyed
(its destroy event fired, the proxy table emptied) with each of its pending
invocation futures rejected with the destroyed error, and a second call to
disconnect() fails with the already-disconnected StateError. -/
theorem C5_disconnect_destroys_and_rejects (s s' : ConnState) (evs : List Event)
    (hconn : s.connected = true)
    (hnodup : (s.instances.map Prod.fst).Nodup)
    (h : ConnState.disconnect s = Except.ok (s', evs)) :
    s'.connected = false ∧
    s'.instances = [] ∧
    (∀ iid inst, (iid, inst) ∈ s.instances →
      Event.roFire iid "destroy" ∈ evs ∧
      ∀ rid ∈ inst.deferredResults,
        Event.invSettle iid rid
          (InvOutcome.rejected (JsValue.vstr "remote object destroyed")) ∈ evs) ∧
    ConnState.disconnect s' = Except.error "already disconnected" := by
  have hd := disconnect_ok s hconn s' evs h
  refine ⟨hd.1, hd.2.1, ?_, hd.2.2.2.2.2.2.2.2.2.2.1⟩
  intro iid inst hmem
  have hp := hd.2.2.2.2.2.2.2.2.2.2.2 hnodup iid inst hmem
  exact ⟨hp.2.1, hp.2.2.1⟩

/-- Witness for C5 at a connection with one live proxy: the second
disconnect fails. -/
theorem C5_witness :
    (oneProxyState.connected = true ∧ (oneProxyState.instances.map Prod.fst).Nodup) ∧
    ConnState.disconnect (okParts (ConnState.disconnect oneProxyState)).1
      = Except.error "already disconnected" := by
  refine ⟨⟨rfl, by decide⟩, ?_⟩
  exact (C5_disconnect_destroys_and_rejects oneProxyState
      (okParts (ConnState.disconnect oneProxyState)).1
      (okParts (ConnState.disconnect oneProxyState)).2
      rfl (by decide) rfl).2.2.2

/-- Counterexample to C9 as stated: disconnecting while a create request is
in flight (its future is table entry 0) adds a new entry (id 1, for the
destroy request the teardown enqueues) to the RequestQueue future table, so
the table is not left untouched. -/
theorem C9_counterexample :
    (ConnState.disconnect inFlightCreateState).toOption.map
        (fun p => p.1.requests.tableIDs) = some [0, 1] ∧
    inFlightCreateState.requests.tableIDs = [0] ∧
    (ConnState.disconnect inFlightCreateState).toOption.map
        (fun p => p.1.requests.tableIDs)
      ≠ some inFlightCreateState.requests.tableIDs := by
  decide

/-- C9 (amended): the teardown performed by disconnect() never resolves,
rejects or removes any future stored in the RequestQueue — every pending
entry is still present and still unsettled afterwards — although the table
may gain new entries for the destroy requests the teardown enqueues. -/
theorem C9_disconnect_leaves_queue_futures_pending (s s' : ConnState) (evs : List Event)
    (hconn : s.connected = true)
    (h : ConnState.disconnect s = Except.ok (s', evs)) :
    s'.requests.settled = s.requests.settled ∧
    (∃ ext, s'.requests.tableIDs = s.requests.tableIDs ++ ext) ∧
    (∀ rid ∈ s.requests.tableIDs, rid ∈ s'.requests.tableIDs) ∧
    (∀ rid, rid ∉ s.requests.settled.map Prod.fst →
      rid ∉ s'.requests.settled.map Prod.fst) := by
  have hd := disconnect_ok s hconn s' evs h
  refine ⟨hd.2.2.2.1, hd.2.2.2.2.1, ?_, ?_⟩
  · intro rid hr
    rcases hd.2.2.2.2.1 with ⟨ext, he⟩
    rw [he]
    exact List.mem_append_left _ hr
  · intro rid hr
    rw [hd.2.2.2.1]
    exact hr

/-- Witness for C9 at a connection with an in-flight create future. -/
theorem C9_witness :
    inFlightCreateState.connected = true ∧
    (okParts (ConnState.disconnect inFlightCreateState)).1.requests.settled
      = inFlightCreateState.requests.settled := by
  refine ⟨rfl, ?_⟩
  exact (C9_disconnect_leaves_queue_futures_pending inFlightCreateState
      (okParts (ConnState.disconnect inFlightCreateState)).1
      (okParts (ConnState.disconnect inFlightCreateState)).2
      rfl rfl).1

theorem disconnect_some_of_connected (s : ConnState) (hconn : s.connected = true) :
    ∃ r, ConnState.disconnect s = Except.ok r := by
  rw [ConnState.disconnect, if_pos hconn]
  exact ⟨_, rfl⟩

/-- C3: a genuine (non-timeout) poll failure whose generation is still
current, on a running poller, clears the watchdog and invokes onLoss exactly
once; the connection fires the loss event and then the disconnect event, no
further poll GET is issued anywhere in the handling, and the poller ends
stopped so any re-entry into poll() is a no-op. -/
theorem C3_genuine_poll_failure_is_terminal (pollID : Nat) (err : JsValue)
    (s s' : ConnState) (evs : List Event)
    (hconn : s.connected = true)
    (hpid : pollID = s.poller.curPollID)
    (hstop : s.poller.stopped = false)
    (h : ConnState.pollFailure pollID err s = Except.ok (s', evs)) :
    evs.filter Event.isLossSignal = [Event.lossSignal err] ∧
    evs.filter Event.isConnFire
      = [Event.connFire "loss" [err], Event.connFire "disconnect" []] ∧
    evs.filter Event.isPollGet = [] ∧
    s'.poller.stopped = true ∧
    s'.poller.timeoutArmed = false ∧
    Poller.poll s'.poller = (s'.poller, []) := by
  have honr : Poller.onError pollID err s.poller
      = ({ s.poller with pendingRequest := none, timeoutArmed := false },
         [Event.timerClear, Event.lossSignal err]) := by
    rw [Poller.onError, if_neg (by simp [hpid])]
    simp [hstop]
  rw [ConnState.pollFailure] at h
  simp only [honr] at h
  rw [if_pos (by simp)] at h
  rw [ConnState.onLoss] at h
  cases hdis : ConnState.disconnect
      { s with poller := { s.poller with pendingRequest := none, timeoutArmed := false } } with
  | error e =>
    obtain ⟨r, hr⟩ := disconnect_some_of_connected
      { s with poller := { s.poller with pendingRequest := none, timeoutArmed := false } } hconn
    rw [hr] at hdis
    cases hdis
  | ok r =>
    rw [hdis] at h
    injection h with hpair
    injection hpair with hs hevs
    subst hs
    subst hevs
    have hd := disconnect_ok
      { s with poller := { s.poller with pendingRequest := none, timeoutArmed := false } }
      hconn r.1 r.2 hdis
    refine ⟨?_, ?_, ?_, hd.2.2.1, ?_, hd.2.2.2.2.2.2.2.2.2.1⟩
    · simp [List.filter_cons, List.filter_append, Event.isLossSignal,
        hd.2.2.2.2.2.2.2.1]
    · simp [List.filter_cons, List.filter_append, Event.isConnFire,
        hd.2.2.2.2.2.1]
    · simp [List.filter_cons, List.filter_append, Event.isPollGet,
        hd.2.2.2.2.2.2.1]
    · rcases hd.2.2.2.2.2.2.2.2.1 with hta | hta
      · exact hta
      · exact hta
  
/-- Witness for C3 at a connection with one live proxy and a running
poller. -/
theorem C3_witness :
    (oneProxyState.connected = true ∧ 1 = oneProxyState.poller.curPollID ∧
      oneProxyState.poller.stopped = false) ∧
    (okParts (ConnState.pollFailure 1 (JsValue.vstr "boom") oneProxyState)).1.poller.stopped
      = true := by
  refine ⟨⟨rfl, rfl, rfl⟩, ?_⟩
  exact (C3_genuine_poll_failure_is_terminal 1 (JsValue.vstr "boom") oneProxyState
      (okParts (ConnState.pollFailure 1 (JsValue.vstr "boom") oneProxyState)).1
      (okParts (ConnState.pollFailure 1 (JsValue.vstr "boom") oneProxyState)).2
      rfl rfl rfl rfl).2.2.2.1

/-- C8: invoking a method on a proxy whose destroyed flag is set raises the
StateError synchronously; once the proxy is destroyed, a late result or
error arriving for an earlier invocation is discarded without settling the
invocation future; and the application-facing destroy() rejects each pending
invocation future exactly once with the destroyed error. -/
theorem C8_destroyed_proxy_invocations (s : ConnState)
    (instanceID method : String) (resultID : Nat) (result : StrippedResult)
    (error : JsValue) (inst : InstanceState)
    (hinst : getInstance s.instances instanceID = some inst) :
    (inst.destroyed = true →
      ConnState.invoke instanceID method s
          = Except.error "remote object already destroyed" ∧
      ConnState.invokeFulfilled instanceID resultID result s = (s, []) ∧
      ConnState.invokeRejected instanceID resultID error s = (s, [])) ∧
    (inst.roDestroyed = false → inst.deferredResults.Nodup →
      ∀ s' evs, ConnState.proxyDestroy instanceID s = Except.ok (s', evs) →
        ∀ rid ∈ inst.deferredResults,
          evs.count (Event.invSettle instanceID rid
            (InvOutcome.rejected (JsValue.vstr "remote object destroyed"))) = 1) := by
  constructor
  · intro hdes
    refine ⟨?_, ?_, ?_⟩ <;>
      simp [ConnState.invoke, ConnState.invokeFulfilled, ConnState.invokeRejected,
        hinst, hdes]
  · intro hro hnd s' evs h
    intro rid hrid
    simp only [ConnState.proxyDestroy, hinst, hro, Bool.false_eq_true, if_false] at h
    injection h with hpair
    injection hpair with hs hevs
    subst hs
    subst hevs
    have hinst1 : getInstance
        (setInstance s.instances instanceID { inst with roDestroyed := true }) instanceID
        = some { inst with roDestroyed := true } :=
      getInstance_setInstance_self _ _ _ _ hinst
    simp only [ConnState.onDestroy, hinst1, ConnState.destroy]
    rw [List.count_append, List.count_append]
    have hmapcount : (inst.deferredResults.map (fun r =>
        Event.invSettle instanceID r
          (InvOutcome.rejected (JsValue.vstr "remote object destroyed")))).count
          (Event.invSettle instanceID rid
            (InvOutcome.rejected (JsValue.vstr "remote object destroyed"))) = 1 := by
      have hinj : Function.Injective (fun r =>
          Event.invSettle instanceID r
            (InvOutcome.rejected (JsValue.vstr "remote object destroyed"))) := by
        intro a b hab
        injection hab with h1 h2 h3
      rw [List.count_map_of_injective _ _ hinj]
      exact List.count_eq_one_of_mem hnd hrid
    have hsendzero : ∀ l : List Event, (∀ e ∈ l, Event.isPost e = true) →
        l.count (Event.invSettle instanceID rid
          (InvOutcome.rejected (JsValue.vstr "remote object destroyed"))) = 0 := by
      intro l hl
      refine List.count_eq_zero.mpr ?_
      intro hmem
      have hk := hl _ hmem
      simp [Event.isPost] at hk
    rw [hmapcount, hsendzero _ (fun e he => (sendRequest_spec _ _).2.2.2.2.2.2 e he)]
    simp [Event.invSettle]

/-- Witness for C8 at a destroyed proxy. -/
theorem C8_witness :
    getInstance destroyedProxyState.instances "i1" = some ⟨true, true, 1, []⟩ ∧
    ConnState.invoke "i1" "ping" destroyedProxyState
      = Except.error "remote object already destroyed" := by
  refine ⟨by decide, ?_⟩
  exact ((C8_destroyed_proxy_invocations destroyedProxyState "i1" "ping" 0 ⟨none, []⟩
    JsValue.vnull ⟨true, true, 1, []⟩ (by decide)).1 rfl).1

end JSRO
